import Mathlib

/-!
Verification of `naver_cafe_author_crawler.py`: a shallow embedding of the
crawl orchestration and export pipeline (classes `MarkdownExporter` and
`NaverCafeCrawler`), with theorems settling the specification claims.

External collaborators (the HTTP session, `datetime.fromisoformat`, the
page-listing fetch and the comment fetch, and file writes) are modelled as
oracle parameters; the control flow around them is translated line by line
from the source.  An `Except.error` value of an oracle models a Python
exception raised by that call; an `Option` date models
`datetime.fromisoformat`, whose `none` is a raised `ValueError`.
-/

/-- A comment record: `{'author': ..., 'date': ..., 'content': ...}`. -/
structure Comment where
  author : String
  date : String
  content : String
deriving DecidableEq

/-- An article dict as produced by `ArticleParser.parse_article`:
url, title, author, date, content, images, views, comments. -/
structure Article where
  url : String
  title : String
  author : String
  date : String
  content : String
  images : List String
  views : Nat
  comments : List Comment
deriving DecidableEq

/-- `MarkdownExporter._sanitize_filename`, translated from the source:
`safe_name = "".join(c if c.isalnum() or c in ' -_' else '' for c in filename)`
then `safe_name = safe_name.replace(' ', '_')[:50]` and
`return safe_name or "article"`.  Python's `str.isalnum` is modelled by
`Char.isAlphanum`. -/
def sanitize_filename (filename : String) : String :=
  let safe_name := String.mk (filename.toList.filterMap
    (fun c => if c.isAlphanum || c = ' ' || c = '-' || c = '_' then some c else none))
  let truncated := String.mk ((safe_name.toList.map
    (fun c => if c = ' ' then '_' else c)).take 50)
  if truncated = "" then "article" else truncated

/-- The filename rule as the specification words it: remove every character
that is not alphanumeric, space, hyphen, or underscore; replace spaces with
underscores; truncate to at most 50 characters; if the result is empty,
return the fixed sentinel name. -/
def specFilename (title : String) : String :=
  let stripped := title.toList.filter
    (fun c => c.isAlphanum || c = ' ' || c = '-' || c = '_')
  let underscored := stripped.map (fun c => if c = ' ' then '_' else c)
  let truncated := underscored.take 50
  if truncated = [] then "article" else String.mk truncated

/-- The file path an article is written to in `_export_single_article`:
`filepath = output_path / f"{filename}.md"`. -/
def articlePath (dir : String) (a : Article) : String :=
  dir ++ "/" ++ sanitize_filename a.title ++ ".md"

/-- One image line written by `_export_single_article`. -/
def imageLine (url : String) : String :=
  "![Image](" ++ url ++ ")\n"

/-- One comment block written by `_export_single_article`. -/
def commentBlock (c : Comment) : String :=
  "**" ++ c.author ++ "** (" ++ c.date ++ ")\n" ++ c.content ++ "\n\n"

/-- The full content of one article file, concatenating the `f.write` calls
of `_export_single_article` in order (header fields, separator, body, then
the image section only if `article['images']` is truthy and the comment
section only if `article['comments']` is truthy). -/
def articleContent (a : Article) : String :=
  "# " ++ a.title ++ "\n\n" ++
  "**Author:** " ++ a.author ++ "\n" ++
  "**Date:** " ++ a.date ++ "\n" ++
  "**Views:** " ++ toString a.views ++ "\n" ++
  "**URL:** [" ++ a.url ++ "](" ++ a.url ++ ")\n\n" ++
  "---\n\n" ++
  a.content ++ "\n\n" ++
  (if a.images.isEmpty then ""
   else "## Images\n\n" ++ String.join (a.images.map imageLine)) ++
  (if a.comments.isEmpty then ""
   else "\n## Comments (" ++ toString a.comments.length ++ ")\n\n" ++
        String.join (a.comments.map commentBlock))

/-- One numbered entry of the index file (1-based position `i + 1`):
`f"{i}. [{article['title']}](./{filename}.md)"`. -/
def indexLine (i : Nat) (a : Article) : String :=
  toString (i + 1) ++ ". [" ++ a.title ++ "](./" ++ sanitize_filename a.title ++ ".md)\n"

/-- The full content of `INDEX.md`, concatenating the `f.write` calls of
`export_articles` in order. -/
def indexContent (author_name : String) (articles : List Article) : String :=
  "# " ++ author_name ++ " Articles\n\n" ++
  "**Total Articles:** " ++ toString articles.length ++ "\n\n" ++
  "## Article List\n\n" ++
  String.join (articles.enum.map (fun p => indexLine p.1 p.2))

/-- The ordered sequence of file writes performed by
`MarkdownExporter.export_articles`: first `INDEX.md`, then one file per
article, each pair being (path, content). -/
def exportWrites (articles : List Article) (output_dir author_name : String) :
    List (String × String) :=
  (output_dir ++ "/INDEX.md", indexContent author_name articles) ::
    articles.map (fun a => (articlePath output_dir a, articleContent a))

/-- A filesystem: path to file content. -/
def FS : Type := String → Option String

/-- Writing one file: `open(filepath, 'w')` overwrite semantics. -/
def fsWrite (fs : FS) (path content : String) : FS :=
  fun q => if q = path then some content else fs q

/-- Performing a sequence of writes in order. -/
def applyWrites (fs : FS) (ws : List (String × String)) : FS :=
  ws.foldl (fun f pc => fsWrite f pc.1 pc.2) fs

/-- The last content written to `q` by the write sequence, if any. -/
def lastWrite (ws : List (String × String)) (q : String) : Option String :=
  ws.foldl (fun acc pc => if pc.1 = q then some pc.2 else acc) none

/-- `_export_single_article` with the file write modelled by oracle `w`
(`Except.error` = an I/O exception): the write is wrapped in its own
`try/except`, so a failure is logged and the method returns normally; the
result records the path when the write succeeded. -/
def export_single_w (w : String → String → Except String Unit)
    (dir : String) (a : Article) : Option String :=
  match w (articlePath dir a) (articleContent a) with
  | Except.ok _ => some (articlePath dir a)
  | Except.error _ => none

/-- The body of `export_articles` inside its `try`: write `INDEX.md` (an
I/O failure here raises out of the body, abandoning the article files),
then write each article file through the per-article handler.  Returns the
successfully written paths. -/
def exportBody (w : String → String → Except String Unit)
    (articles : List Article) (dir name : String) : Except String (List String) :=
  match w (dir ++ "/INDEX.md") (indexContent name articles) with
  | Except.error e => Except.error e
  | Except.ok _ =>
    Except.ok ((dir ++ "/INDEX.md") :: articles.filterMap (export_single_w w dir))

/-- `MarkdownExporter.export_articles`: the body wrapped in
`try/except Exception`, which logs the error and returns normally. -/
def export_articles_w (w : String → String → Except String Unit)
    (articles : List Article) (dir name : String) : Except String (List String) :=
  match exportBody w articles dir name with
  | Except.ok l => Except.ok l
  | Except.error _ => Except.ok []

/-- `NaverCafeCrawler._export_results`: call `export_articles` under a
`try/except`; an exception raised by it would return `False`, a normal
return yields `True`. -/
def export_results_w (w : String → String → Except String Unit)
    (articles : List Article) (dir name : String) : Bool :=
  match export_articles_w w articles dir name with
  | Except.ok _ => true
  | Except.error _ => false

/-- The mutable crawler state touched by `_fetch_articles`: the corpus
`self.articles`, the counters of `self.stats`, and the number of
`logger.warning` calls issued by the per-entry exception handler. -/
structure CrawlState where
  articles : List Article
  totalArticles : Nat
  totalComments : Nat
  totalImages : Nat
  warnings : Nat
deriving DecidableEq

/-- The state of a fresh `NaverCafeCrawler`: empty corpus, zero counters. -/
def initState : CrawlState :=
  ⟨[], 0, 0, 0, 0⟩

/-- The body of the per-article loop of `_fetch_articles` (one iteration of
`for article in articles`), with its `try ... except` translated branch by
branch.  `pd` models `datetime.fromisoformat` (`none` = `ValueError`), `fc`
models `self._fetch_comments` (`Except.error` = an exception raised by the
aggregator).  Order follows the source: the date is parsed first (a parse
failure reaches `except` before anything is recorded, so the entry is
dropped with a warning); a too-old entry is skipped by `continue`;
otherwise the article is appended and counted, and only then are comments
fetched — an aggregator exception reaches `except` *after* the append, so
the entry stays in the corpus with its original comments and the comment
and image counters are not updated. -/
def processArticle (pd : String → Option Int) (cutoff : Int) (ic : Bool)
    (fc : String → Except String (List Comment))
    (s : CrawlState) (a : Article) : CrawlState :=
  match pd a.date with
  | none => { s with warnings := s.warnings + 1 }
  | some d =>
    if d < cutoff then s
    else if ic then
      match fc a.url with
      | Except.error _ =>
        { s with articles := s.articles ++ [a],
                 totalArticles := s.totalArticles + 1,
                 warnings := s.warnings + 1 }
      | Except.ok cs =>
        { s with articles := s.articles ++ [{ a with comments := cs }],
                 totalArticles := s.totalArticles + 1,
                 totalComments := s.totalComments + cs.length,
                 totalImages := s.totalImages + a.images.length }
    else
      { s with articles := s.articles ++ [a],
               totalArticles := s.totalArticles + 1,
               totalImages := s.totalImages + a.images.length }

/-- The page loop of `_fetch_articles` (`for page in range(1, max_pages + 1)`),
recursing on the number of remaining pages.  `fp` models
`self._fetch_page_articles` (`Except.error` = an exception raised while
fetching the page, which escapes the per-article handler and is caught by
the outer handler of `_fetch_articles`, returning `False`); an empty page
breaks out of the loop and the method returns `True`. -/
def fetchPagesLoop (pd : String → Option Int) (cutoff : Int) (ic : Bool)
    (fc : String → Except String (List Comment))
    (fp : Nat → Except String (List Article)) :
    Nat → Nat → CrawlState → CrawlState × Bool
  | _, 0, s => (s, true)
  | page, Nat.succ r, s =>
    match fp page with
    | Except.error _ => (s, false)
    | Except.ok arts =>
      if arts.isEmpty then (s, true)
      else fetchPagesLoop pd cutoff ic fc fp (page + 1) r
        (arts.foldl (processArticle pd cutoff ic fc) s)

/-- `NaverCafeCrawler._fetch_articles`: run the page loop from page 1 with
`max_pages` pages remaining, starting from the fresh state; returns the
final state and the boolean result. -/
def fetch_articles (pd : String → Option Int) (cutoff : Int) (ic : Bool)
    (fc : String → Except String (List Comment))
    (fp : Nat → Except String (List Article))
    (max_pages : Nat) : CrawlState × Bool :=
  fetchPagesLoop pd cutoff ic fc fp 1 max_pages initState

/-- The articles one page contributes to the corpus: entries whose dates
parse and pass the cutoff, with comments attached when the fetch succeeds. -/
def keptPage (pd : String → Option Int) (cutoff : Int) (ic : Bool)
    (fc : String → Except String (List Comment))
    (l : List Article) : List Article :=
  l.filterMap (fun a =>
    match pd a.date with
    | none => none
    | some d =>
      if d < cutoff then none
      else if ic then
        match fc a.url with
        | Except.error _ => some a
        | Except.ok cs => some { a with comments := cs }
      else some a)

/-- The body of `NaverCafeCrawler.run` inside its `try`: the three stage
calls in order, each modelled as a computation that either returns its
boolean (the stages catch their own expected errors) or raises an
unexpected exception; a `False` stage result returns `False` immediately,
skipping the remaining stages. -/
def runBody (auth fetch expt : Except String Bool) : Except String Bool :=
  match auth with
  | Except.error e => Except.error e
  | Except.ok false => Except.ok false
  | Except.ok true =>
    match fetch with
    | Except.error e => Except.error e
    | Except.ok false => Except.ok false
    | Except.ok true =>
      match expt with
      | Except.error e => Except.error e
      | Except.ok false => Except.ok false
      | Except.ok true => Except.ok true

/-- `NaverCafeCrawler.run`: the `try/except/finally` around the body.  The
first component is what the caller sees (`Except.ok` = a normal boolean
return; the `except Exception` arm converts any raised error into a normal
`False`); the second records that the `finally` arm ran `self.cleanup()`. -/
def run_crawler (auth fetch expt : Except String Bool) :
    Except String Bool × Bool :=
  match runBody auth fetch expt with
  | Except.ok b => (Except.ok b, true)
  | Except.error _ => (Except.ok false, true)

/-- The observable outcome of one concrete `run()` with the collaborators
wired in: final boolean, whether the export stage was reached, whether
`cleanup()` ran, and the corpus held in `self.articles` at the end. -/
structure RunResult where
  ok : Bool
  exportRan : Bool
  cleanupRan : Bool
  corpus : List Article
deriving DecidableEq

/-- `NaverCafeCrawler.run` with `_fetch_articles` and `_export_results`
wired in (`authOk` models the boolean result of `_authenticate`, which
catches its own exceptions).  Stage order and early returns follow the
source: a `False` from a stage returns `False` immediately and skips the
later stages; `cleanup()` runs in the `finally` on every path.  The corpus
lives on `self`, so it survives a failed fetch stage. -/
def runWired (authOk : Bool) (pd : String → Option Int) (cutoff : Int)
    (ic : Bool) (fc : String → Except String (List Comment))
    (fp : Nat → Except String (List Article)) (max_pages : Nat)
    (w : String → String → Except String Unit) (dir name : String) : RunResult :=
  if authOk = false then ⟨false, false, true, []⟩
  else
    let fr := fetch_articles pd cutoff ic fc fp max_pages
    if fr.2 = false then ⟨false, false, true, fr.1.articles⟩
    else ⟨export_results_w w fr.1.articles dir name, true, true, fr.1.articles⟩

/-- First colliding test post, title `"Hello World!!!"`. -/
def helloA : Article :=
  ⟨"u1", "Hello World!!!", "A", "2024-01-01", "x", [], 0, []⟩

/-- Second colliding test post, title `"Hello World???"`. -/
def helloB : Article :=
  ⟨"u2", "Hello World???", "A", "2024-01-02", "y", [], 0, []⟩

/-- Witness article for the pagination claims (date string "d1"). -/
def wArt1 : Article := ⟨"u1", "T1", "A", "d1", "c", [], 0, []⟩

/-- Witness date parser: parses only "d1", to timestamp 10. -/
def pdW : String → Option Int := fun s => if s = "d1" then some (10 : Int) else none

/-- Witness comment fetcher that always succeeds with no comments. -/
def fcW : String → Except String (List Comment) := fun _ => Except.ok []

/-- Witness listing: one article on page 1, nothing afterwards. -/
def pagesW : Nat → List Article := fun j => if j = 1 then [wArt1] else []

/-- A post whose date string is the parser's own "Unknown" sentinel, which
`datetime.fromisoformat` cannot parse. -/
def wArtUnknown : Article := ⟨"u9", "T9", "A", "Unknown", "c", [], 0, []⟩

/-- Listing for the unparseable-date run: that one post on page 1. -/
def pagesU : Nat → List Article := fun j => if j = 1 then [wArtUnknown] else []

/-- Page fetcher that succeeds on page 1 and raises on every later page. -/
def fpC2 : Nat → Except String (List Article) :=
  fun j => if j = 1 then Except.ok [wArt1] else Except.error "network error"

/-- File-write oracle that always succeeds. -/
def wOk : String → String → Except String Unit := fun _ _ => Except.ok ()

/-- File-write oracle that always raises an I/O error. -/
def wFail : String → String → Except String Unit :=
  fun _ _ => Except.error "disk full"

/-- Fault-isolation test posts (urls "v1", "v2"). -/
def wB1 : Article := ⟨"v1", "S1", "A", "d1", "c", [], 0, []⟩

/-- Second fault-isolation test post. -/
def wB2 : Article := ⟨"v2", "S2", "A", "d1", "c", [], 0, []⟩

/-- Comment fetcher that raises exactly on post "v1". -/
def fcFail : String → Except String (List Comment) :=
  fun u => if u = "v1" then Except.error "comment fetch failed" else Except.ok []

/-- Listing for the fault-isolation run: two posts on page 1. -/
def pagesF : Nat → List Article := fun j => if j = 1 then [wB1, wB2] else []

/-- The single comment used by the statistics witness. -/
def oneComment : Comment := ⟨"CA", "cd", "cc"⟩

/-- Statistics test posts q1..q5. -/
def wC1 : Article := ⟨"q1", "P1", "A", "d1", "c", [], 0, []⟩

/-- Statistics test post q2. -/
def wC2 : Article := ⟨"q2", "P2", "A", "d1", "c", [], 0, []⟩

/-- Statistics test post q3. -/
def wC3 : Article := ⟨"q3", "P3", "A", "d1", "c", [], 0, []⟩

/-- Statistics test post q4. -/
def wC4 : Article := ⟨"q4", "P4", "A", "d1", "c", [], 0, []⟩

/-- Statistics test post q5. -/
def wC5 : Article := ⟨"q5", "P5", "A", "d1", "c", [], 0, []⟩

/-- Comment fetcher giving the five posts comment counts [0,2,1,0,3]. -/
def fcCounts : String → Except String (List Comment) := fun u =>
  if u = "q2" then Except.ok [oneComment, oneComment]
  else if u = "q3" then Except.ok [oneComment]
  else if u = "q5" then Except.ok [oneComment, oneComment, oneComment]
  else Except.ok []

/-- Listing for the statistics run: the five posts on page 1. -/
def pages5 : Nat → List Article :=
  fun j => if j = 1 then [wC1, wC2, wC3, wC4, wC5] else []

theorem filterMap_if_eq_filter (p : Char → Bool) (l : List Char) :
    l.filterMap (fun c => if p c then some c else none) = l.filter p := by
  induction l with
  | nil => rfl
  | cons c tl ih =>
    by_cases h : p c <;> simp [List.filterMap_cons, List.filter_cons, h, ih]

theorem string_mk_eq_empty_iff (l : List Char) : String.mk l = "" ↔ l = [] := by
  constructor
  · intro h
    have := congrArg String.data h
    simpa using this
  · intro h
    subst h
    rfl

theorem toList_mk (l : List Char) : (String.mk l).toList = l := rfl

theorem foldl_lastWrite (q : String) (ws : List (String × String)) :
    ∀ acc : Option String,
      ws.foldl (fun acc pc => if pc.1 = q then some pc.2 else acc) acc
        = match lastWrite ws q with
          | some c => some c
          | none => acc := by
  induction ws with
  | nil => intro acc; rfl
  | cons pc tl ih =>
    intro acc
    show tl.foldl _ (if pc.1 = q then some pc.2 else acc) = _
    rw [ih]
    have hcons : lastWrite (pc :: tl) q
        = match lastWrite tl q with
          | some c => some c
          | none => if pc.1 = q then some pc.2 else none := by
      show tl.foldl _ (if pc.1 = q then some pc.2 else none) = _
      rw [ih]
    rw [hcons]
    rcases lastWrite tl q with _ | c
    · by_cases h : pc.1 = q <;> simp [h]
    · rfl

theorem applyWrites_lookup (ws : List (String × String)) :
    ∀ (fs : FS) (q : String),
      applyWrites fs ws q
        = match lastWrite ws q with
          | some c => some c
          | none => fs q := by
  induction ws with
  | nil => intro fs q; rfl
  | cons pc tl ih =>
    intro fs q
    show applyWrites (fsWrite fs pc.1 pc.2) tl q = _
    rw [ih]
    have hcons : lastWrite (pc :: tl) q
        = match lastWrite tl q with
          | some c => some c
          | none => if pc.1 = q then some pc.2 else none := by
      show tl.foldl _ (if pc.1 = q then some pc.2 else none) = _
      rw [foldl_lastWrite]
    rw [hcons]
    rcases lastWrite tl q with _ | c
    · show fsWrite fs pc.1 pc.2 q = _
      unfold fsWrite
      by_cases h : pc.1 = q
      · simp [h]
      · have h2 : ¬ q = pc.1 := fun hq => h hq.symm
        simp [h, h2]
    · rfl

theorem applyWrites_idem (ws : List (String × String)) (fs : FS) :
    applyWrites (applyWrites fs ws) ws = applyWrites fs ws := by
  funext q
  rw [applyWrites_lookup, applyWrites_lookup]
  rcases lastWrite ws q with _ | c <;> rfl

theorem processArticle_articles (pd : String → Option Int) (cutoff : Int)
    (ic : Bool) (fc : String → Except String (List Comment))
    (s : CrawlState) (a : Article) :
    (processArticle pd cutoff ic fc s a).articles
      = s.articles ++ keptPage pd cutoff ic fc [a] := by
  unfold processArticle keptPage
  rcases h : pd a.date with _ | d
  · simp [h]
  · simp only [h, List.filterMap]
    by_cases hd : d < cutoff
    · simp [hd]
    · rcases ic with _ | _
      · simp [hd]
      · rcases hf : fc a.url with e | cs <;> simp [hd, hf]

theorem foldl_processArticle_articles (pd : String → Option Int) (cutoff : Int)
    (ic : Bool) (fc : String → Except String (List Comment)) (l : List Article) :
    ∀ s : CrawlState,
      (l.foldl (processArticle pd cutoff ic fc) s).articles
        = s.articles ++ keptPage pd cutoff ic fc l := by
  induction l with
  | nil => intro s; simp [keptPage]
  | cons a tl ih =>
    intro s
    show ((tl.foldl _ (processArticle pd cutoff ic fc s a))).articles = _
    rw [ih, processArticle_articles]
    have hsplit : keptPage pd cutoff ic fc (a :: tl)
        = keptPage pd cutoff ic fc [a] ++ keptPage pd cutoff ic fc tl := by
      unfold keptPage
      simp [List.filterMap_cons]
      rcases pd a.date with _ | d
      · rfl
      · by_cases hd : d < cutoff
        · simp [hd]
        · rcases ic with _ | _
          · simp [hd]
          · rcases fc a.url with e | cs <;> simp [hd]
    rw [hsplit, List.append_assoc]

theorem foldPages_articles (pd : String → Option Int) (cutoff : Int) (ic : Bool)
    (fc : String → Except String (List Comment)) (P : Nat → List Article)
    (js : List Nat) :
    ∀ s : CrawlState,
      (js.foldl (fun t j => (P j).foldl (processArticle pd cutoff ic fc) t) s).articles
        = s.articles ++ (js.map (fun j => keptPage pd cutoff ic fc (P j))).flatten := by
  induction js with
  | nil => intro s; simp
  | cons j tl ih =>
    intro s
    show (tl.foldl _ ((P j).foldl (processArticle pd cutoff ic fc) s)).articles = _
    rw [ih, foldl_processArticle_articles]
    simp [List.append_assoc]

theorem fetchPagesLoop_stops (pd : String → Option Int) (cutoff : Int) (ic : Bool)
    (fc : String → Except String (List Comment))
    (fp : Nat → Except String (List Article)) (P : Nat → List Article) :
    ∀ (m p r : Nat) (s : CrawlState),
      (∀ i, i < m → fp (p + i) = Except.ok (P (p + i)) ∧ P (p + i) ≠ []) →
      fp (p + m) = Except.ok [] →
      m < r →
      fetchPagesLoop pd cutoff ic fc fp p r s
        = ((List.range' p m).foldl
            (fun t j => (P j).foldl (processArticle pd cutoff ic fc) t) s, true) := by
  intro m
  induction m with
  | zero =>
    intro p r s _ hend hr
    have hp : fp p = Except.ok [] := by simpa using hend
    rcases r with _ | r
    · exact absurd hr (by omega)
    · simp [fetchPagesLoop, hp, List.range']
  | succ m ih =>
    intro p r s hmid hend hr
    rcases r with _ | r
    · exact absurd hr (by omega)
    have h0 : fp p = Except.ok (P p) ∧ P p ≠ [] := by
      have := hmid 0 (by omega)
      simpa using this
    have hne : (P p).isEmpty = false := by
      cases hP : P p with
      | nil => exact absurd hP h0.2
      | cons a tl => rfl
    have hmid2 : ∀ i, i < m → fp (p + 1 + i) = Except.ok (P (p + 1 + i))
        ∧ P (p + 1 + i) ≠ [] := by
      intro i hi
      have heq : p + 1 + i = p + (i + 1) := by omega
      rw [heq]
      exact hmid (i + 1) (by omega)
    have hend2 : fp (p + 1 + m) = Except.ok [] := by
      have heq : p + 1 + m = p + (m + 1) := by omega
      rw [heq]
      exact hend
    have hstep : fetchPagesLoop pd cutoff ic fc fp p (r + 1) s
        = fetchPagesLoop pd cutoff ic fc fp (p + 1) r
            ((P p).foldl (processArticle pd cutoff ic fc) s) := by
      simp [fetchPagesLoop, h0.1, hne]
    rw [hstep, ih (p + 1) r _ hmid2 hend2 (by omega), List.range'_succ]
    rfl

theorem fetchPagesLoop_error (pd : String → Option Int) (cutoff : Int) (ic : Bool)
    (fc : String → Except String (List Comment))
    (fp : Nat → Except String (List Article)) (P : Nat → List Article)
    (err : String) :
    ∀ (m p r : Nat) (s : CrawlState),
      (∀ i, i < m → fp (p + i) = Except.ok (P (p + i)) ∧ P (p + i) ≠ []) →
      fp (p + m) = Except.error err →
      m < r →
      fetchPagesLoop pd cutoff ic fc fp p r s
        = ((List.range' p m).foldl
            (fun t j => (P j).foldl (processArticle pd cutoff ic fc) t) s, false) := by
  intro m
  induction m with
  | zero =>
    intro p r s _ hend hr
    have hp : fp p = Except.error err := by simpa using hend
    rcases r with _ | r
    · exact absurd hr (by omega)
    · simp [fetchPagesLoop, hp, List.range']
  | succ m ih =>
    intro p r s hmid hend hr
    rcases r with _ | r
    · exact absurd hr (by omega)
    have h0 : fp p = Except.ok (P p) ∧ P p ≠ [] := by
      have := hmid 0 (by omega)
      simpa using this
    have hne : (P p).isEmpty = false := by
      cases hP : P p with
      | nil => exact absurd hP h0.2
      | cons a tl => rfl
    have hmid2 : ∀ i, i < m → fp (p + 1 + i) = Except.ok (P (p + 1 + i))
        ∧ P (p + 1 + i) ≠ [] := by
      intro i hi
      have heq : p + 1 + i = p + (i + 1) := by omega
      rw [heq]
      exact hmid (i + 1) (by omega)
    have hend2 : fp (p + 1 + m) = Except.error err := by
      have heq : p + 1 + m = p + (m + 1) := by omega
      rw [heq]
      exact hend
    have hstep : fetchPagesLoop pd cutoff ic fc fp p (r + 1) s
        = fetchPagesLoop pd cutoff ic fc fp (p + 1) r
            ((P p).foldl (processArticle pd cutoff ic fc) s) := by
      simp [fetchPagesLoop, h0.1, hne]
    rw [hstep, ih (p + 1) r _ hmid2 hend2 (by omega), List.range'_succ]
    rfl

theorem processArticle_warn (pd : String → Option Int) (cutoff : Int) (ic : Bool)
    (fc : String → Except String (List Comment)) (s : CrawlState) (a : Article) :
    processArticle pd cutoff ic fc { s with warnings := s.warnings + 1 } a
      = { processArticle pd cutoff ic fc s a with
          warnings := (processArticle pd cutoff ic fc s a).warnings + 1 } := by
  unfold processArticle
  rcases h : pd a.date with _ | d
  · simp [h]
  · simp only [h]
    by_cases hd : d < cutoff
    · simp [hd]
    · rcases ic with _ | _
      · simp [hd]
      · rcases hf : fc a.url with e | cs <;> simp [hd, hf]

theorem foldl_processArticle_warn (pd : String → Option Int) (cutoff : Int)
    (ic : Bool) (fc : String → Except String (List Comment)) (l : List Article) :
    ∀ s : CrawlState,
      l.foldl (processArticle pd cutoff ic fc) { s with warnings := s.warnings + 1 }
        = { l.foldl (processArticle pd cutoff ic fc) s with
            warnings := (l.foldl (processArticle pd cutoff ic fc) s).warnings + 1 } := by
  induction l with
  | nil => intro s; rfl
  | cons a tl ih =>
    intro s
    show tl.foldl _ (processArticle pd cutoff ic fc { s with warnings := s.warnings + 1 } a) = _
    rw [processArticle_warn]
    exact ih (processArticle pd cutoff ic fc s a)

theorem processArticle_stats (pd : String → Option Int) (cutoff : Int)
    (fc : String → Except String (List Comment)) (s : CrawlState) (a : Article)
    (hc : a.comments = [])
    (h1 : s.totalArticles = s.articles.length)
    (h2 : s.totalComments = (s.articles.map (fun x => x.comments.length)).sum) :
    (processArticle pd cutoff true fc s a).totalArticles
      = (processArticle pd cutoff true fc s a).articles.length
    ∧ (processArticle pd cutoff true fc s a).totalComments
      = ((processArticle pd cutoff true fc s a).articles.map
          (fun x => x.comments.length)).sum := by
  unfold processArticle
  rcases h : pd a.date with _ | d
  · simp [h, h1, h2]
  · simp only [h]
    by_cases hd : d < cutoff
    · simp [hd, h1, h2]
    · rcases hf : fc a.url with e | cs
      · simp [hd, hf, h1, h2, hc]
      · simp [hd, hf, h1, h2]

theorem foldl_processArticle_stats (pd : String → Option Int) (cutoff : Int)
    (fc : String → Except String (List Comment)) :
    ∀ l : List Article, (∀ a ∈ l, a.comments = []) →
      ∀ s : CrawlState,
        s.totalArticles = s.articles.length →
        s.totalComments = (s.articles.map (fun x => x.comments.length)).sum →
        (l.foldl (processArticle pd cutoff true fc) s).totalArticles
          = (l.foldl (processArticle pd cutoff true fc) s).articles.length
        ∧ (l.foldl (processArticle pd cutoff true fc) s).totalComments
          = ((l.foldl (processArticle pd cutoff true fc) s).articles.map
              (fun x => x.comments.length)).sum := by
  intro l
  induction l with
  | nil => intro _ s h1 h2; exact ⟨h1, h2⟩
  | cons a tl ih =>
    intro hl s h1 h2
    have ha := hl a (List.mem_cons_self a tl)
    have h' := processArticle_stats pd cutoff fc s a ha h1 h2
    exact ih (fun x hx => hl x (List.mem_cons_of_mem a hx)) _ h'.1 h'.2

theorem fetchPagesLoop_stats (pd : String → Option Int) (cutoff : Int)
    (fc : String → Except String (List Comment))
    (fp : Nat → Except String (List Article))
    (hfp : ∀ j l, fp j = Except.ok l → ∀ a ∈ l, a.comments = []) :
    ∀ (r p : Nat) (s : CrawlState),
      s.totalArticles = s.articles.length →
      s.totalComments = (s.articles.map (fun x => x.comments.length)).sum →
      (fetchPagesLoop pd cutoff true fc fp p r s).1.totalArticles
        = (fetchPagesLoop pd cutoff true fc fp p r s).1.articles.length
      ∧ (fetchPagesLoop pd cutoff true fc fp p r s).1.totalComments
        = ((fetchPagesLoop pd cutoff true fc fp p r s).1.articles.map
            (fun x => x.comments.length)).sum := by
  intro r
  induction r with
  | zero => intro p s h1 h2; exact ⟨h1, h2⟩
  | succ r ih =>
    intro p s h1 h2
    rcases hp : fp p with e | arts
    · simpa [fetchPagesLoop, hp] using ⟨h1, h2⟩
    · cases hA : arts.isEmpty with
      | true => simpa [fetchPagesLoop, hp, hA] using ⟨h1, h2⟩
      | false =>
        have hfold := foldl_processArticle_stats pd cutoff fc arts
          (hfp p arts hp) s h1 h2
        simpa [fetchPagesLoop, hp, hA] using ih (p + 1) _ hfold.1 hfold.2

/-- Claim C4: for every title string, the source's `_sanitize_filename`
computes exactly the spec's rule: strip characters that are not
alphanumeric, space, hyphen or underscore; spaces to underscores; truncate
to 50 characters; an empty result falls back to "article". -/
theorem sanitize_filename_spec (title : String) :
    sanitize_filename title = specFilename title := by
  unfold sanitize_filename specFilename
  simp only [filterMap_if_eq_filter, toList_mk, string_mk_eq_empty_iff]

/-- Claim C7: exporting the same corpus twice to the same output location
with the same author display name performs exactly the same write sequence
(the contents are a function of the corpus alone), and replaying it over
the already-exported filesystem leaves every file unchanged: re-running
overwrites, it never duplicates. -/
theorem export_idempotent (fs : FS) (articles : List Article)
    (output_dir author_name : String) :
    applyWrites (applyWrites fs (exportWrites articles output_dir author_name))
        (exportWrites articles output_dir author_name)
      = applyWrites fs (exportWrites articles output_dir author_name) :=
  applyWrites_idem _ fs

/-- Claim C3, refuted on the source: two distinct posts whose titles
sanitize identically receive the *same* file path — there is no
disambiguating suffix — and the index links both entries to that one path,
so the second post's file overwrites the first. -/
theorem filename_collision_same_path :
    helloA ≠ helloB ∧
    sanitize_filename helloA.title = "Hello_World" ∧
    sanitize_filename helloB.title = "Hello_World" ∧
    articlePath "out" helloA = articlePath "out" helloB ∧
    (exportWrites [helloA, helloB] "out" "A").map Prod.fst
      = ["out/INDEX.md", "out/Hello_World.md", "out/Hello_World.md"] ∧
    indexContent "A" [helloA, helloB]
      = "# A Articles\n\n**Total Articles:** 2\n\n## Article List\n\n" ++
        "1. [Hello World!!!](./Hello_World.md)\n" ++
        "2. [Hello World???](./Hello_World.md)\n" := by
  refine ⟨by decide, rfl, rfl, rfl, rfl, rfl⟩

/-- Claim C5: if page `k` (within the page limit) is the first page yielding
zero entries, collection stops there without error: the run reports `true`,
the final state is exactly the fold of pages `1..k-1` in order, and the
corpus is the concatenation of the kept entries of pages `1..k-1` in page
order then within-page order.  The conclusion holds for *every* fetcher
that agrees with the listing on pages `1..k`, so no page after `k` is ever
consulted. -/
theorem pagination_stops_at_empty_page (pd : String → Option Int) (cutoff : Int)
    (ic : Bool) (fc : String → Except String (List Comment))
    (P : Nat → List Article) (k max_pages : Nat)
    (h1 : 1 ≤ k) (h2 : k ≤ max_pages) (hk : P k = [])
    (hne : ∀ j, 1 ≤ j → j < k → P j ≠ []) :
    ∀ fp : Nat → Except String (List Article),
      (∀ j, 1 ≤ j → j ≤ k → fp j = Except.ok (P j)) →
      fetch_articles pd cutoff ic fc fp max_pages
        = ((List.range' 1 (k - 1)).foldl
            (fun t j => (P j).foldl (processArticle pd cutoff ic fc) t) initState, true)
      ∧ (fetch_articles pd cutoff ic fc fp max_pages).1.articles
        = ((List.range' 1 (k - 1)).map
            (fun j => keptPage pd cutoff ic fc (P j))).flatten := by
  intro fp hfp
  have hmid : ∀ i, i < k - 1 → fp (1 + i) = Except.ok (P (1 + i))
      ∧ P (1 + i) ≠ [] := by
    intro i hi
    exact ⟨hfp (1 + i) (by omega) (by omega), hne (1 + i) (by omega) (by omega)⟩
  have hend : fp (1 + (k - 1)) = Except.ok [] := by
    have heq : 1 + (k - 1) = k := by omega
    rw [heq, hfp k h1 (le_refl k), hk]
  have hmain := fetchPagesLoop_stops pd cutoff ic fc fp P (k - 1) 1 max_pages
    initState hmid hend (by omega)
  refine ⟨hmain, ?_⟩
  show (fetch_articles pd cutoff ic fc fp max_pages).1.articles = _
  unfold fetch_articles
  rw [hmain, foldPages_articles]
  rfl

theorem pagination_stops_witness :
    fetch_articles pdW 0 false fcW (fun j => Except.ok (pagesW j)) 3
      = (⟨[wArt1], 1, 0, 0, 0⟩, true)
    ∧ (fetch_articles pdW 0 false fcW
        (fun j => Except.ok (pagesW j)) 3).1.articles = [wArt1] := by
  have h := pagination_stops_at_empty_page pdW 0 false fcW pagesW 2 3
    (by omega) (by omega) (by rfl)
    (by intro j hj1 hj2
        have hj : j = 1 := by omega
        subst hj
        decide)
    (fun j => Except.ok (pagesW j)) (fun j _ _ => rfl)
  exact ⟨h.1.trans (by decide), h.2.trans (by decide)⟩

/-- Claim C1, refuted on the source (code bug): for an entry whose date
string fails to parse, `datetime.fromisoformat` raises *before* the entry
is appended, so the per-entry handler logs a warning and drops it — the
emitted corpus is empty even though collection reports success.  The spec
(and the parser's own "Unknown" date sentinel) require such an entry to be
kept. -/
theorem unparseable_date_entry_dropped :
    (fetch_articles pdW 0 false fcW
        (fun j => Except.ok (pagesU j)) 3).1.articles = []
    ∧ (fetch_articles pdW 0 false fcW
        (fun j => Except.ok (pagesU j)) 3).1.warnings = 1
    ∧ (fetch_articles pdW 0 false fcW
        (fun j => Except.ok (pagesU j)) 3).2 = true := by
  refine ⟨by decide, by decide, by decide⟩

/-- Claim C2, refuted on the source: when fetching page 2 raises, the
records of page 1 survive in `self.articles`, but `_fetch_articles`
returns `False` and `run()` returns `False` *without* reaching the export
stage — a page-fetch failure does prevent export. -/
theorem page_fetch_failure_blocks_export_cex :
    (runWired true pdW 0 false fcW fpC2 5 wOk "out" "A").corpus = [wArt1]
    ∧ (runWired true pdW 0 false fcW fpC2 5 wOk "out" "A").exportRan = false
    ∧ (runWired true pdW 0 false fcW fpC2 5 wOk "out" "A").ok = false := by
  refine ⟨by decide, by decide, by decide⟩

/-- Claim C2 as amended: if fetching page `k` raises, pagination stops at
page `k` and every record collected from pages `1..k-1` is preserved in
the crawler's state, but `_fetch_articles` returns `False`, so `run()`
logs an error and returns `False` without running the export stage. -/
theorem page_fetch_failure_truncates_and_skips_export
    (pd : String → Option Int) (cutoff : Int) (ic : Bool)
    (fc : String → Except String (List Comment))
    (fp : Nat → Except String (List Article)) (P : Nat → List Article)
    (k max_pages : Nat) (err : String)
    (w : String → String → Except String Unit) (dir name : String)
    (h1 : 1 ≤ k) (h2 : k ≤ max_pages)
    (hmid : ∀ j, 1 ≤ j → j < k → fp j = Except.ok (P j) ∧ P j ≠ [])
    (hk : fp k = Except.error err) :
    fetch_articles pd cutoff ic fc fp max_pages
      = ((List.range' 1 (k - 1)).foldl
          (fun t j => (P j).foldl (processArticle pd cutoff ic fc) t) initState, false)
    ∧ (fetch_articles pd cutoff ic fc fp max_pages).1.articles
      = ((List.range' 1 (k - 1)).map
          (fun j => keptPage pd cutoff ic fc (P j))).flatten
    ∧ runWired true pd cutoff ic fc fp max_pages w dir name
      = ⟨false, false, true, (fetch_articles pd cutoff ic fc fp max_pages).1.articles⟩ := by
  have hmid2 : ∀ i, i < k - 1 → fp (1 + i) = Except.ok (P (1 + i))
      ∧ P (1 + i) ≠ [] := by
    intro i hi
    exact hmid (1 + i) (by omega) (by omega)
  have hend : fp (1 + (k - 1)) = Except.error err := by
    have heq : 1 + (k - 1) = k := by omega
    rw [heq]
    exact hk
  have hmain := fetchPagesLoop_error pd cutoff ic fc fp P err (k - 1) 1 max_pages
    initState hmid2 hend (by omega)
  have hcorpus : (fetch_articles pd cutoff ic fc fp max_pages).1.articles
      = ((List.range' 1 (k - 1)).map
          (fun j => keptPage pd cutoff ic fc (P j))).flatten := by
    show (fetch_articles pd cutoff ic fc fp max_pages).1.articles = _
    unfold fetch_articles
    rw [hmain, foldPages_articles]
    rfl
  refine ⟨hmain, hcorpus, ?_⟩
  have hf2 : (fetch_articles pd cutoff ic fc fp max_pages).2 = false := by
    unfold fetch_articles
    rw [hmain]
  simp [runWired, hf2]

theorem page_fetch_failure_truncates_witness :
    fetch_articles pdW 0 false fcW fpC2 5
      = ((List.range' 1 1).foldl
          (fun t j => (pagesW j).foldl (processArticle pdW 0 false fcW) t)
          initState, false)
    ∧ runWired true pdW 0 false fcW fpC2 5 wOk "out" "A"
      = ⟨false, false, true, (fetch_articles pdW 0 false fcW fpC2 5).1.articles⟩ := by
  have h := page_fetch_failure_truncates_and_skips_export pdW 0 false fcW fpC2
    pagesW 2 5 "network error" wOk "out" "A" (by omega) (by omega)
    (by intro j hj1 hj2
        have hj : j = 1 := by omega
        subst hj
        exact ⟨rfl, by decide⟩)
    rfl
  exact ⟨h.1, h.2.2⟩

/-- Claim C6, refuted on the source: when the comment aggregator raises on
entry 1 of a 2-entry page, entry 1 is *not* skipped — it was appended and
counted before the aggregator call, so it stays in the corpus and in
`total_articles`; only a warning is recorded. -/
theorem aggregator_failure_entry_kept_cex :
    (fetch_articles pdW 0 true fcFail
        (fun j => Except.ok (pagesF j)) 2).1.articles = [wB1, wB2]
    ∧ (fetch_articles pdW 0 true fcFail
        (fun j => Except.ok (pagesF j)) 2).1.totalArticles = 2
    ∧ (fetch_articles pdW 0 true fcFail
        (fun j => Except.ok (pagesF j)) 2).1.warnings = 1 := by
  refine ⟨by decide, by decide, by decide⟩

/-- Claim C6 as amended: a date-parse failure on entry `i` of a page is
caught and logged and entry `i` alone is dropped — the other `n-1` entries
are processed exactly as if `i` were absent, with one extra warning and no
change to corpus or counters, and the loop never aborts.  A
comment-aggregator failure on entry `i` is also caught and logged, but it
strikes *after* the append: entry `i` stays in the corpus with its original
comments and is counted in `total_articles`, while its comment and image
statistics are skipped. -/
theorem entry_fault_isolation_amended (pd : String → Option Int) (cutoff : Int)
    (ic : Bool) (fc : String → Except String (List Comment))
    (l1 l2 : List Article) (a : Article) (s : CrawlState) :
    (pd a.date = none →
      ((l1 ++ a :: l2).foldl (processArticle pd cutoff ic fc) s).articles
        = ((l1 ++ l2).foldl (processArticle pd cutoff ic fc) s).articles
      ∧ ((l1 ++ a :: l2).foldl (processArticle pd cutoff ic fc) s).totalArticles
        = ((l1 ++ l2).foldl (processArticle pd cutoff ic fc) s).totalArticles
      ∧ ((l1 ++ a :: l2).foldl (processArticle pd cutoff ic fc) s).totalComments
        = ((l1 ++ l2).foldl (processArticle pd cutoff ic fc) s).totalComments
      ∧ ((l1 ++ a :: l2).foldl (processArticle pd cutoff ic fc) s).totalImages
        = ((l1 ++ l2).foldl (processArticle pd cutoff ic fc) s).totalImages
      ∧ ((l1 ++ a :: l2).foldl (processArticle pd cutoff ic fc) s).warnings
        = ((l1 ++ l2).foldl (processArticle pd cutoff ic fc) s).warnings + 1)
    ∧ (∀ d err, pd a.date = some d → ¬ d < cutoff → ic = true →
        fc a.url = Except.error err →
        (l1 ++ a :: l2).foldl (processArticle pd cutoff ic fc) s
          = l2.foldl (processArticle pd cutoff ic fc)
              { l1.foldl (processArticle pd cutoff ic fc) s with
                articles := (l1.foldl (processArticle pd cutoff ic fc) s).articles ++ [a],
                totalArticles := (l1.foldl (processArticle pd cutoff ic fc) s).totalArticles + 1,
                warnings := (l1.foldl (processArticle pd cutoff ic fc) s).warnings + 1 }) := by
  constructor
  · intro h
    have e1 : (l1 ++ a :: l2).foldl (processArticle pd cutoff ic fc) s
        = l2.foldl (processArticle pd cutoff ic fc)
            (processArticle pd cutoff ic fc
              (l1.foldl (processArticle pd cutoff ic fc) s) a) := by
      rw [List.foldl_append]
      rfl
    have e2 : processArticle pd cutoff ic fc
          (l1.foldl (processArticle pd cutoff ic fc) s) a
        = { l1.foldl (processArticle pd cutoff ic fc) s with
            warnings := (l1.foldl (processArticle pd cutoff ic fc) s).warnings + 1 } := by
      unfold processArticle
      rw [h]
    have e3 : (l1 ++ l2).foldl (processArticle pd cutoff ic fc) s
        = l2.foldl (processArticle pd cutoff ic fc)
            (l1.foldl (processArticle pd cutoff ic fc) s) :=
      List.foldl_append ..
    rw [e1, e2, foldl_processArticle_warn, e3]
    exact ⟨rfl, rfl, rfl, rfl, rfl⟩
  · intro d err hpd hd hic hfc
    subst hic
    rw [List.foldl_append]
    show l2.foldl _ (processArticle pd cutoff true fc
      (l1.foldl (processArticle pd cutoff true fc) s) a) = _
    have e2 : processArticle pd cutoff true fc
          (l1.foldl (processArticle pd cutoff true fc) s) a
        = { l1.foldl (processArticle pd cutoff true fc) s with
            articles := (l1.foldl (processArticle pd cutoff true fc) s).articles ++ [a],
            totalArticles := (l1.foldl (processArticle pd cutoff true fc) s).totalArticles + 1,
            warnings := (l1.foldl (processArticle pd cutoff true fc) s).warnings + 1 } := by
      simp [processArticle, hpd, hd, hfc]
    rw [e2]

theorem entry_fault_isolation_witness :
    ([wArtUnknown, wB2].foldl (processArticle pdW 0 true fcFail) initState).articles
      = ([wB2].foldl (processArticle pdW 0 true fcFail) initState).articles
    ∧ ([wArtUnknown, wB2].foldl (processArticle pdW 0 true fcFail) initState).warnings
      = ([wB2].foldl (processArticle pdW 0 true fcFail) initState).warnings + 1
    ∧ [wB1, wB2].foldl (processArticle pdW 0 true fcFail) initState
      = [wB2].foldl (processArticle pdW 0 true fcFail) ⟨[wB1], 1, 0, 0, 1⟩ := by
  have h1 := (entry_fault_isolation_amended pdW 0 true fcFail
    [] [wB2] wArtUnknown initState).1 (by decide)
  have h2 := (entry_fault_isolation_amended pdW 0 true fcFail
    [] [wB2] wB1 initState).2 10 "comment fetch failed"
    (by decide) (by decide) rfl rfl
  exact ⟨h1.1, h1.2.2.2.2, h2⟩

/-- Claim C8: `run()` never raises past its own boundary — its result is
always a normal boolean return, any exception raised inside the body is
converted into a `False` result — and the `finally` arm runs `cleanup()`
on every exit path. -/
theorem run_returns_bool_cleanup_always (auth fetch expt : Except String Bool) :
    (∃ b, (run_crawler auth fetch expt).1 = Except.ok b)
    ∧ (run_crawler auth fetch expt).2 = true
    ∧ (∀ err, runBody auth fetch expt = Except.error err →
        (run_crawler auth fetch expt).1 = Except.ok false) := by
  unfold run_crawler
  rcases h : runBody auth fetch expt with e | b
  · exact ⟨⟨false, rfl⟩, rfl, fun err _ => rfl⟩
  · refine ⟨⟨b, rfl⟩, rfl, ?_⟩
    intro err herr
    simp [h] at herr

theorem run_cleanup_witness :
    (run_crawler (Except.error "boom") (Except.ok true) (Except.ok true)).1
      = Except.ok false
    ∧ (run_crawler (Except.error "boom") (Except.ok true) (Except.ok true)).2
      = true := by
  have h := run_returns_bool_cleanup_always
    (Except.error "boom") (Except.ok true) (Except.ok true)
  exact ⟨h.2.2 "boom" rfl, h.2.1⟩

/-- Claim C9: with comment inclusion enabled and entries arriving with the
parser's empty comment list, after collection the reported post total
equals the number of records in the corpus and the reported comment total
equals the sum of the per-post comment-list lengths. -/
theorem stats_match_corpus (pd : String → Option Int) (cutoff : Int)
    (fc : String → Except String (List Comment))
    (fp : Nat → Except String (List Article)) (max_pages : Nat)
    (hfp : ∀ j l, fp j = Except.ok l → ∀ a ∈ l, a.comments = []) :
    (fetch_articles pd cutoff true fc fp max_pages).1.totalArticles
      = (fetch_articles pd cutoff true fc fp max_pages).1.articles.length
    ∧ (fetch_articles pd cutoff true fc fp max_pages).1.totalComments
      = ((fetch_articles pd cutoff true fc fp max_pages).1.articles.map
          (fun x => x.comments.length)).sum :=
  fetchPagesLoop_stats pd cutoff fc fp hfp max_pages 1 initState rfl rfl

theorem stats_match_witness :
    (fetch_articles pdW 0 true fcCounts
        (fun j => Except.ok (pages5 j)) 2).1.totalArticles
      = (fetch_articles pdW 0 true fcCounts
          (fun j => Except.ok (pages5 j)) 2).1.articles.length
    ∧ (fetch_articles pdW 0 true fcCounts
        (fun j => Except.ok (pages5 j)) 2).1.totalComments
      = ((fetch_articles pdW 0 true fcCounts
          (fun j => Except.ok (pages5 j)) 2).1.articles.map
          (fun x => x.comments.length)).sum
    ∧ (fetch_articles pdW 0 true fcCounts
        (fun j => Except.ok (pages5 j)) 2).1.totalArticles = 5
    ∧ (fetch_articles pdW 0 true fcCounts
        (fun j => Except.ok (pages5 j)) 2).1.totalComments = 6 := by
  have h := stats_match_corpus pdW 0 fcCounts (fun j => Except.ok (pages5 j)) 2
    (by intro j l hjl a ha
        have hl : l = pages5 j := by
          injection hjl with hinj
          exact hinj.symm
        subst hl
        unfold pages5 at ha
        by_cases hj : j = 1
        · rw [if_pos hj] at ha
          simp at ha
          rcases ha with rfl | rfl | rfl | rfl | rfl <;> rfl
        · rw [if_neg hj] at ha
          cases ha)
  exact ⟨h.1, h.2, by decide, by decide⟩

/-- Claim C10: `export_articles` catches every exception internally and
returns normally, so `_export_results` returns `True` for *every*
file-write oracle — even one that fails every write — and an export I/O
failure alone can never make `run()` return `False`. -/
theorem export_failure_reports_success
    (w : String → String → Except String Unit) (articles : List Article)
    (d n : String) (pd : String → Option Int) (cutoff : Int) (ic : Bool)
    (fc : String → Except String (List Comment))
    (fp : Nat → Except String (List Article)) (max_pages : Nat)
    (dir name : String)
    (hf : (fetch_articles pd cutoff ic fc fp max_pages).2 = true) :
    export_results_w w articles d n = true
    ∧ (runWired true pd cutoff ic fc fp max_pages w dir name).ok = true := by
  have hok : ∀ (A : List Article) (dd nn : String),
      export_results_w w A dd nn = true := by
    intro A dd nn
    unfold export_results_w export_articles_w
    rcases h : exportBody w A dd nn with e | l <;> simp [h]
  refine ⟨hok articles d n, ?_⟩
  simp [runWired, hf, hok]

theorem export_failure_reports_success_witness :
    export_results_w wFail [wArt1] "out" "A" = true
    ∧ (runWired true pdW 0 false fcW
        (fun j => Except.ok (pagesW j)) 3 wFail "out" "A").ok = true :=
  export_failure_reports_success wFail [wArt1] "out" "A" pdW 0 false fcW
    (fun j => Except.ok (pagesW j)) 3 "out" "A" (by decide)
